import Mathlib

/-!
Verification of the slack-connect-scheduler message scheduling subsystem.

A shallow embedding, in Lean 4, of the scheduling and delivery core of the
repository:

* `src/server/src/database/database.ts` — the Message Store and Credential
  Store operations (`getPendingMessages`, `updateScheduledMessage`,
  `deleteScheduledMessage`, `getUserById`, `updateUser`,
  `createScheduledMessage`);
* `src/server/src/services/schedulerService.ts` — the Scheduler Loop
  (`processScheduledMessages`, `processMessage`, `scheduleMessage`,
  `cancelScheduledMessage`);
* `src/unnamed/part_003` (the Slack service) — `refreshAccessToken`;
* `src/server/src/routes/messages.ts` — the `/schedule` route handler.

Modelling conventions:
* Timestamps are `Nat` (Unix epoch seconds, as in the source which uses
  `Math.floor(Date.now() / 1000)` throughout).
* Mongo `ObjectId` values are modelled as `Nat` identifiers.
* The bookkeeping columns `created_at` / `updated_at` (JavaScript `Date`
  audit stamps, set on every write and not part of the spec's data model)
  are omitted from the record types.
* External effects (the Slack refresh HTTP response and the outcome of a
  delivery call) are supplied by an `Env` of oracles keyed by user id and
  message id respectively; `processMessage` threads them deterministically.
* JavaScript truthiness matters in two places of the source
  (`user.token_expires_at && …` and `!user.refresh_token`) and is modelled
  explicitly: the number `0` and the empty string are falsy.
* `updateScheduledMessage` in the source throws when no record matches; all
  scheduler call sites update a record previously read from the store, so
  the embedding models the update as a total map over the store.
-/

/-- Message status, from the `ScheduledMessage` interface in
`database.ts`: `'pending' | 'sent' | 'failed'`. -/
inductive MsgStatus where
  | pending
  | sent
  | failed
deriving DecidableEq, Repr

/-- A scheduled message record (`ScheduledMessage` in `database.ts`),
without the `created_at` / `updated_at` audit stamps. -/
structure ScheduledMessage where
  id : Nat
  user_id : Nat
  channel : String
  message : String
  send_timestamp : Nat
  status : MsgStatus
  retry_count : Nat
deriving DecidableEq, Repr

/-- A credential record (`User` in `database.ts`), without audit stamps.
`refresh_token` and `token_expires_at` are optional/nullable in the
source. -/
structure User where
  id : Nat
  access_token : String
  refresh_token : Option String
  token_expires_at : Option Nat
deriving DecidableEq, Repr

/-- JavaScript truthiness of an optional number (`null`/`undefined` and `0`
are falsy). -/
def truthyNum : Option Nat → Bool
  | none => false
  | some n => n != 0

/-- JavaScript truthiness of an optional string (`null`/`undefined` and `""`
are falsy). -/
def truthyStr : Option String → Bool
  | none => false
  | some s => s != ""

/-- JavaScript `x || d` on an optional number: `d` when `x` is
`null`/`undefined` or `0`. -/
def jsOrNum : Option Nat → Nat → Nat
  | none, d => d
  | some n, d => if n = 0 then d else n

/-- The database state: the `users` and `scheduled_messages` collections. -/
structure DBState where
  msgs : List ScheduledMessage
  users : List User
deriving DecidableEq, Repr

/-- Embeds `Database.getUserById`: `findOne({_id: id})` — the first user record
with the given id. -/
def getUserById (users : List User) (uid : Nat) : Option User :=
  users.find? (fun u => u.id == uid)

/-- Look up a message record by id (`findOne` semantics: first match). -/
def findMsg (msgs : List ScheduledMessage) (i : Nat) : Option ScheduledMessage :=
  msgs.find? (fun m => m.id == i)

/-- Embeds `Database.getPendingMessages`: `find({status: 'pending',
send_timestamp: {$lte: now}})`, with no sort stage — the matching records
in store order. -/
def getPendingMessages (msgs : List ScheduledMessage) (now : Nat) :
    List ScheduledMessage :=
  msgs.filter (fun m => m.status == MsgStatus.pending && decide (m.send_timestamp ≤ now))

/-- A partial update document for a scheduled message (the `$set` fields
used by the scheduler: `status`, `retry_count`, `send_timestamp`). -/
structure MsgUpdate where
  status : Option MsgStatus := none
  retry_count : Option Nat := none
  send_timestamp : Option Nat := none
deriving DecidableEq, Repr

/-- Apply a `$set` update document to one message record. -/
def applyUpdate (m : ScheduledMessage) (u : MsgUpdate) : ScheduledMessage :=
  { m with
    status := u.status.getD m.status
    retry_count := u.retry_count.getD m.retry_count
    send_timestamp := u.send_timestamp.getD m.send_timestamp }

/-- Embeds `Database.updateScheduledMessage`: `updateOne({_id: id}, {$set: …})`.
Ids are intended unique, so the map touches at most the one record with
the given id in a well-formed store. -/
def updateScheduledMessage (msgs : List ScheduledMessage) (i : Nat)
    (u : MsgUpdate) : List ScheduledMessage :=
  msgs.map (fun m => if m.id == i then applyUpdate m u else m)

/-- Embeds `Database.updateUser` as used by the scheduler: `$set` of
`access_token` and `token_expires_at` after a successful refresh. -/
def updateUserToken (users : List User) (uid : Nat) (tok : String)
    (exp : Nat) : List User :=
  users.map (fun u =>
    if u.id == uid then { u with access_token := tok, token_expires_at := some exp } else u)

/-- Embeds `Database.deleteScheduledMessage`: `deleteOne({_id: id, user_id:
userId})`; throws `'Scheduled message not found or unauthorized'` when no
record matches. The filter mentions only id and owner — not `status`. -/
def deleteScheduledMessage (msgs : List ScheduledMessage) (i uid : Nat) :
    Except String (List ScheduledMessage) :=
  if msgs.any (fun m => m.id == i && m.user_id == uid) then
    Except.ok (msgs.eraseP (fun m => m.id == i && m.user_id == uid))
  else
    Except.error "Scheduled message not found or unauthorized"

/-- The Slack OAuth refresh HTTP response body, as read by
`SlackService.refreshAccessToken` (`src/unnamed/part_003`): `ok`,
`access_token`, and an optional `expires_in`. -/
structure SlackRefreshResponse where
  ok : Bool
  access_token : String
  expires_in : Option Nat
deriving DecidableEq, Repr

/-- The value returned by `SlackService.refreshAccessToken`. -/
structure RefreshResult where
  access_token : String
  expires_in : Nat
deriving DecidableEq, Repr

/-- Embeds `SlackService.refreshAccessToken` (`src/unnamed/part_003`): rejects a
falsy refresh token; a missing response (network error) or `ok: false`
response becomes the caught-and-rethrown error; otherwise returns the new
access token with `expires_in: response.data.expires_in || 43200`. -/
def refreshAccessToken (resp : Option SlackRefreshResponse)
    (refreshToken : Option String) : Except String RefreshResult :=
  if !truthyStr refreshToken then
    Except.error "No refresh token available - token rotation may not be enabled for this app"
  else
    match resp with
    | none => Except.error "Failed to refresh access token"
    | some r =>
      if !r.ok then Except.error "Failed to refresh access token"
      else Except.ok { access_token := r.access_token
                       expires_in := jsOrNum r.expires_in 43200 }

/-- One call to `SlackService.sendMessage` made by the scheduler, tagged
with the id of the message being processed and whether the call
succeeded. -/
structure DeliveryCall where
  msgId : Nat
  token : String
  channel : String
  text : String
  ok : Bool
deriving DecidableEq, Repr

/-- The environment of external effects for a processing step: the current
time, the Slack refresh response per user id (`none` models a network
failure), and the delivery outcome per message id (`false` models
`sendMessage` throwing). -/
structure Env where
  now : Nat
  refreshResponse : Nat → Option SlackRefreshResponse
  sendOutcome : Nat → Bool

/-- The result of a scheduler step: the new database state and the delivery
calls that were made. -/
structure ProcResult where
  state : DBState
  deliveries : List DeliveryCall
deriving Repr

/-- Embeds the check `user.token_expires_at && user.token_expires_at <= now` from
`processMessage` — JavaScript truthiness makes an expiry of `0` behave as
"no expiry". -/
def tokenExpired (u : User) (now : Nat) : Bool :=
  match u.token_expires_at with
  | none => false
  | some e => e != 0 && decide (e ≤ now)

/-- The tail of `SchedulerService.processMessage`: the `sendMessage` call
and the surrounding try/catch. On success the message is marked `sent`;
on failure, with `newRetryCount = retry_count + 1` and `maxRetries = 3`,
the message is marked `failed` (keeping the incremented count) when
`newRetryCount >= maxRetries`, and otherwise rescheduled `pending` with
`send_timestamp = now + 300`. -/
def sendAndFinish (env : Env) (st : DBState) (message : ScheduledMessage)
    (accessToken : String) : ProcResult :=
  let call : DeliveryCall :=
    { msgId := message.id, token := accessToken, channel := message.channel
      text := message.message, ok := env.sendOutcome message.id }
  if env.sendOutcome message.id then
    let upd : MsgUpdate := { status := some MsgStatus.sent }
    { state := { st with msgs := updateScheduledMessage st.msgs message.id upd }
      deliveries := [call] }
  else
    let newRetryCount := message.retry_count + 1
    let maxRetries := 3
    if newRetryCount ≥ maxRetries then
      let upd : MsgUpdate :=
        { status := some MsgStatus.failed, retry_count := some newRetryCount }
      { state := { st with msgs := updateScheduledMessage st.msgs message.id upd }
        deliveries := [call] }
    else
      let upd : MsgUpdate :=
        { retry_count := some newRetryCount
          send_timestamp := some (env.now + 300) }
      { state := { st with msgs := updateScheduledMessage st.msgs message.id upd }
        deliveries := [call] }

/-- Embeds `SchedulerService.processMessage`: look up the owner; if absent, mark
the message `failed` (status only). If the credential is expired (truthy
expiry `<= now`): with a falsy refresh token, or a failing refresh call,
mark `failed` with `retry_count + 1`; on a successful refresh persist the
new token and expiry and continue. Then attempt delivery via
`sendAndFinish`. -/
def processMessage (env : Env) (st : DBState) (message : ScheduledMessage) :
    ProcResult :=
  match getUserById st.users message.user_id with
  | none =>
    let upd : MsgUpdate := { status := some MsgStatus.failed }
    { state := { st with msgs := updateScheduledMessage st.msgs message.id upd }
      deliveries := [] }
  | some user =>
    if tokenExpired user env.now then
      let failUpd : MsgUpdate :=
        { status := some MsgStatus.failed
          retry_count := some (message.retry_count + 1) }
      if !truthyStr user.refresh_token then
        { state := { st with msgs := updateScheduledMessage st.msgs message.id failUpd }
          deliveries := [] }
      else
        match refreshAccessToken (env.refreshResponse user.id) user.refresh_token with
        | Except.error _ =>
          { state := { st with msgs := updateScheduledMessage st.msgs message.id failUpd }
            deliveries := [] }
        | Except.ok r =>
          let users2 := updateUserToken st.users user.id r.access_token
            (env.now + r.expires_in)
          sendAndFinish env { st with users := users2 } message r.access_token
    else
      sendAndFinish env st message user.access_token

/-- Sequentially process a list of messages (the `for … of` loop body of
`processScheduledMessages`), threading the database state and collecting
delivery calls. -/
def runList (env : Env) : List ScheduledMessage → DBState → ProcResult
  | [], st => { state := st, deliveries := [] }
  | m :: rest, st =>
    let r := processMessage env st m
    let r2 := runList env rest r.state
    { state := r2.state, deliveries := r.deliveries ++ r2.deliveries }

/-- Embeds `SchedulerService.processScheduledMessages` — one tick: read the due
set (`getPendingMessages`) once, then process each listed message in
order. -/
def processScheduledMessages (env : Env) (st : DBState) : ProcResult :=
  runList env (getPendingMessages st.msgs env.now) st

/-- A sequence of ticks, each with its own environment (time and external
outcomes), as driven by the cron job when ticks do not overlap. -/
def runTicks : List Env → DBState → ProcResult
  | [], st => { state := st, deliveries := [] }
  | e :: rest, st =>
    let r := processScheduledMessages e st
    let r2 := runTicks rest r.state
    { state := r2.state, deliveries := r.deliveries ++ r2.deliveries }

/-- Two overlapping tick executions: the cron callback is `async` and
node-cron does not wait for the previous invocation, so a second tick's
`getPendingMessages` read can happen while the first tick is suspended at
an `await`, before the first tick has written any status. Both ticks then
process their own (identical) snapshots of the due list. This is one
legal interleaving of the two executions under the JavaScript event
loop. -/
def overlappingTicks (envA envB : Env) (st : DBState) : ProcResult :=
  let listA := getPendingMessages st.msgs envA.now
  let listB := getPendingMessages st.msgs envB.now
  let rA := runList envA listA st
  let rB := runList envB listB rA.state
  { state := rB.state, deliveries := rA.deliveries ++ rB.deliveries }

/-- Number of delivery calls made for a given message id. -/
def countDeliveries (i : Nat) (ds : List DeliveryCall) : Nat :=
  (ds.filter (fun c => c.msgId == i)).length

/-- Number of successful delivery calls made for a given message id. -/
def countSuccesses (i : Nat) (ds : List DeliveryCall) : Nat :=
  (ds.filter (fun c => c.msgId == i && c.ok)).length

/-- Embeds `SchedulerService.scheduleMessage`: insert a fresh record with
`status: 'pending'` and `retry_count: 0` (no validation of
`send_timestamp` happens here — that is the route handler's job). -/
def scheduleMessage (msgs : List ScheduledMessage) (freshId userId : Nat)
    (channel text : String) (sendTimestamp : Nat) : List ScheduledMessage :=
  msgs ++ [{ id := freshId, user_id := userId, channel := channel
             message := text, send_timestamp := sendTimestamp
             status := MsgStatus.pending, retry_count := 0 }]

/-- Embeds `SchedulerService.cancelScheduledMessage`: delegate to
`Database.deleteScheduledMessage`; any error is caught and rethrown as
`'Failed to cancel scheduled message'`. -/
def cancelScheduledMessage (msgs : List ScheduledMessage) (i uid : Nat) :
    Except String (List ScheduledMessage) :=
  match deleteScheduledMessage msgs i uid with
  | Except.ok r => Except.ok r
  | Except.error _ => Except.error "Failed to cancel scheduled message"

/-- A JSON body field as the `/schedule` route handler sees it: a string, a
number, or absent. Numbers are restricted to naturals (Unix-second
timestamps); a negative timestamp takes the same rejection path as any
other past timestamp. -/
inductive JsVal where
  | str (s : String)
  | num (n : Nat)
  | missing
deriving DecidableEq, Repr

/-- JavaScript truthiness of a body field (`""`, `0` and absence are
falsy). -/
def JsVal.truthy : JsVal → Bool
  | JsVal.str s => s != ""
  | JsVal.num n => n != 0
  | JsVal.missing => false

/-- Models `typeof v === 'string'`. -/
def JsVal.isString : JsVal → Bool
  | JsVal.str _ => true
  | _ => false

/-- Models `typeof v === 'number'`. -/
def JsVal.isNumber : JsVal → Bool
  | JsVal.num _ => true
  | _ => false

/-- The HTTP outcome of the `/schedule` handler: a 400 rejection with an
error message, or a 200 success carrying the new message id. -/
inductive HandlerOutcome where
  | badRequest (error : String)
  | ok (messageId : Nat)
deriving DecidableEq, Repr

/-- Whether the handler rejected the request. -/
def HandlerOutcome.isBadRequest : HandlerOutcome → Bool
  | HandlerOutcome.badRequest _ => true
  | HandlerOutcome.ok _ => false

/-- The outcome of a `/schedule` request together with the message store
after the handler ran. -/
structure ScheduleResult where
  outcome : HandlerOutcome
  msgs : List ScheduledMessage
deriving DecidableEq, Repr

/-- The string value of a body field known (from the `typeof` guard) to be
a string; the default is unreachable at its use sites. -/
def JsVal.getStr : JsVal → String
  | JsVal.str s => s
  | _ => ""

/-- The numeric value of a body field known (from the `typeof` guard) to be
a number; the default is unreachable at its use sites. -/
def JsVal.getNum : JsVal → Nat
  | JsVal.num n => n
  | _ => 0

/-- The `/schedule` route handler (`createMessageRoutes` in
`routes/messages.ts`), for an authenticated user: required-field
truthiness check, `typeof` checks, empty-after-trim check, then the
`sendTimestamp <= now` check; only past all of those does it call
`schedulerService.scheduleMessage`, which inserts the record. -/
def scheduleHandler (now userId freshId : Nat)
    (channel messageBody sendTimestamp : JsVal)
    (msgs : List ScheduledMessage) : ScheduleResult :=
  if !channel.truthy || !messageBody.truthy || !sendTimestamp.truthy then
    { outcome := HandlerOutcome.badRequest "Channel, message, and sendTimestamp are required"
      msgs := msgs }
  else if !channel.isString || !messageBody.isString || !sendTimestamp.isNumber then
    { outcome := HandlerOutcome.badRequest "Invalid data types for required fields"
      msgs := msgs }
  else if (messageBody.getStr).trim.length = 0 then
    { outcome := HandlerOutcome.badRequest "Message cannot be empty", msgs := msgs }
  else if sendTimestamp.getNum ≤ now then
    { outcome := HandlerOutcome.badRequest "Send timestamp must be in the future"
      msgs := msgs }
  else
    { outcome := HandlerOutcome.ok freshId
      msgs := scheduleMessage msgs freshId userId channel.getStr messageBody.getStr
        sendTimestamp.getNum }

/-! ## Store lemmas: lookups against `$set` updates -/

theorem applyUpdate_id (m : ScheduledMessage) (u : MsgUpdate) :
    (applyUpdate m u).id = m.id := rfl

theorem findMsg_some {msgs : List ScheduledMessage} {i : Nat} {m : ScheduledMessage}
    (h : findMsg msgs i = some m) : m.id = i := by
  unfold findMsg at h
  simpa using List.find?_some h

theorem findMsg_updateScheduledMessage (msgs : List ScheduledMessage)
    (j i : Nat) (u : MsgUpdate) :
    findMsg (updateScheduledMessage msgs j u) i
      = (findMsg msgs i).map (fun m => if m.id == j then applyUpdate m u else m) := by
  unfold findMsg updateScheduledMessage
  rw [List.find?_map]
  have hpq : ((fun m : ScheduledMessage => m.id == i)
      ∘ (fun m => if m.id == j then applyUpdate m u else m))
      = (fun m : ScheduledMessage => m.id == i) := by
    funext m
    by_cases h : m.id == j <;> simp [h, applyUpdate_id, Function.comp]
  rw [hpq]

theorem findMsg_update_self {msgs : List ScheduledMessage} {i : Nat}
    {m : ScheduledMessage} (h : findMsg msgs i = some m) (u : MsgUpdate) :
    findMsg (updateScheduledMessage msgs i u) i = some (applyUpdate m u) := by
  have hid : m.id = i := findMsg_some h
  rw [findMsg_updateScheduledMessage, h]
  simp [hid]

theorem findMsg_update_other {msgs : List ScheduledMessage} {j i : Nat}
    (h : j ≠ i) (u : MsgUpdate) :
    findMsg (updateScheduledMessage msgs j u) i = findMsg msgs i := by
  rw [findMsg_updateScheduledMessage]
  cases hf : findMsg msgs i with
  | none => rfl
  | some m =>
    have hid : m.id = i := findMsg_some hf
    simp [hid, Ne.symm h]

theorem findMsg_mem_nodup :
    ∀ {msgs : List ScheduledMessage}, (msgs.map (fun m => m.id)).Nodup →
      ∀ {m : ScheduledMessage}, m ∈ msgs → findMsg msgs m.id = some m := by
  intro msgs
  induction msgs with
  | nil => intro _ m hm; cases hm
  | cons a t ih =>
    intro hn m hm
    have hn' : (∀ x ∈ t, ¬ x.id = a.id) ∧ (t.map (fun m => m.id)).Nodup := by
      simpa using hn
    rcases List.mem_cons.mp hm with rfl | hmt
    · unfold findMsg
      exact List.find?_cons_of_pos _ (by simp)
    · have ha : ¬(a.id == m.id) = true := by
        simp only [beq_iff_eq]
        intro he
        exact hn'.1 m hmt (he.symm)
      unfold findMsg
      rw [@List.find?_cons_of_neg _ (fun x => x.id == m.id) a t ha]
      exact ih hn'.2 hmt

theorem updateScheduledMessage_ids (msgs : List ScheduledMessage) (j : Nat) (u : MsgUpdate) :
    (updateScheduledMessage msgs j u).map (fun m => m.id) = msgs.map (fun m => m.id) := by
  unfold updateScheduledMessage
  rw [List.map_map]
  have hpq : ((fun m : ScheduledMessage => m.id)
      ∘ (fun m => if m.id == j then applyUpdate m u else m))
      = (fun m : ScheduledMessage => m.id) := by
    funext m
    by_cases h : m.id == j <;> simp [h, applyUpdate_id, Function.comp]
  rw [hpq]

/-- The `$set` document `sendAndFinish` writes for a message, as a function
of the delivery outcome and the message's retry count. -/
def sendResultUpdate (env : Env) (m : ScheduledMessage) : MsgUpdate :=
  if env.sendOutcome m.id then { status := some MsgStatus.sent }
  else if m.retry_count + 1 ≥ 3 then
    { status := some MsgStatus.failed, retry_count := some (m.retry_count + 1) }
  else
    { retry_count := some (m.retry_count + 1), send_timestamp := some (env.now + 300) }

theorem sendAndFinish_msgs (env : Env) (st : DBState) (m : ScheduledMessage)
    (tok : String) :
    (sendAndFinish env st m tok).state.msgs
      = updateScheduledMessage st.msgs m.id (sendResultUpdate env m) := by
  unfold sendAndFinish sendResultUpdate
  by_cases hs : env.sendOutcome m.id
  · simp [hs]
  · by_cases hr : m.retry_count + 1 ≥ 3 <;> simp [hs, hr]

theorem sendAndFinish_users (env : Env) (st : DBState) (m : ScheduledMessage)
    (tok : String) :
    (sendAndFinish env st m tok).state.users = st.users := by
  unfold sendAndFinish
  by_cases hs : env.sendOutcome m.id
  · simp [hs]
  · by_cases hr : m.retry_count + 1 ≥ 3 <;> simp [hs, hr]

theorem sendAndFinish_deliveries (env : Env) (st : DBState) (m : ScheduledMessage)
    (tok : String) :
    (sendAndFinish env st m tok).deliveries
      = [{ msgId := m.id, token := tok, channel := m.channel, text := m.message
           ok := env.sendOutcome m.id }] := by
  unfold sendAndFinish
  by_cases hs : env.sendOutcome m.id
  · simp [hs]
  · by_cases hr : m.retry_count + 1 ≥ 3 <;> simp [hs, hr]

theorem processMessage_user_none (env : Env) (st : DBState) (m : ScheduledMessage)
    (hu : getUserById st.users m.user_id = none) :
    processMessage env st m
      = { state := { st with msgs := updateScheduledMessage st.msgs m.id
                                 ({ status := some MsgStatus.failed } : MsgUpdate) }
          deliveries := [] } := by
  unfold processMessage
  rw [hu]

theorem processMessage_expired_no_refresh (env : Env) (st : DBState)
    (m : ScheduledMessage) {u : User}
    (hu : getUserById st.users m.user_id = some u)
    (hexp : tokenExpired u env.now = true)
    (hrt : truthyStr u.refresh_token = false) :
    processMessage env st m
      = { state := { st with msgs := updateScheduledMessage st.msgs m.id
                                 ({ status := some MsgStatus.failed
                                    retry_count := some (m.retry_count + 1) } : MsgUpdate) }
          deliveries := [] } := by
  unfold processMessage
  rw [hu]
  simp only [hexp, hrt, if_true, Bool.not_false, if_pos]

theorem processMessage_msgs_is_update (env : Env) (st : DBState)
    (m : ScheduledMessage) :
    ∃ u : MsgUpdate, (processMessage env st m).state.msgs
      = updateScheduledMessage st.msgs m.id u := by
  unfold processMessage
  cases hu : getUserById st.users m.user_id with
  | none => exact ⟨_, rfl⟩
  | some user =>
    by_cases hexp : tokenExpired user env.now
    · simp only [hexp, if_true]
      by_cases hrt : truthyStr user.refresh_token
      · simp only [hrt, Bool.not_true, Bool.false_eq_true, if_false]
        cases href : refreshAccessToken (env.refreshResponse user.id) user.refresh_token with
        | error e => exact ⟨_, rfl⟩
        | ok r => exact ⟨_, sendAndFinish_msgs env _ m r.access_token⟩
      · simp only [hrt, Bool.not_false, if_true]
        exact ⟨_, rfl⟩
    · simp only [hexp, if_false]
      exact ⟨_, sendAndFinish_msgs env st m user.access_token⟩

theorem processMessage_findMsg_other (env : Env) (st : DBState)
    (m : ScheduledMessage) {i : Nat} (h : m.id ≠ i) :
    findMsg (processMessage env st m).state.msgs i = findMsg st.msgs i := by
  obtain ⟨u, hu⟩ := processMessage_msgs_is_update env st m
  rw [hu, findMsg_update_other h]

theorem processMessage_ids (env : Env) (st : DBState) (m : ScheduledMessage) :
    (processMessage env st m).state.msgs.map (fun x => x.id)
      = st.msgs.map (fun x => x.id) := by
  obtain ⟨u, hu⟩ := processMessage_msgs_is_update env st m
  rw [hu, updateScheduledMessage_ids]

theorem processMessage_deliveries_shape (env : Env) (st : DBState)
    (m : ScheduledMessage) :
    (processMessage env st m).deliveries = []
    ∨ ∃ tok, (processMessage env st m).deliveries
        = [{ msgId := m.id, token := tok, channel := m.channel, text := m.message
             ok := env.sendOutcome m.id }] := by
  unfold processMessage
  cases hu : getUserById st.users m.user_id with
  | none => left; rfl
  | some user =>
    by_cases hexp : tokenExpired user env.now
    · simp only [hexp, if_true]
      by_cases hrt : truthyStr user.refresh_token
      · simp only [hrt, Bool.not_true, Bool.false_eq_true, if_false]
        cases href : refreshAccessToken (env.refreshResponse user.id) user.refresh_token with
        | error e => left; rfl
        | ok r => exact Or.inr ⟨r.access_token, sendAndFinish_deliveries env _ m r.access_token⟩
      · simp only [hrt, Bool.not_false, if_true]
        left; trivial
    · simp only [hexp, if_false]
      exact Or.inr ⟨user.access_token, sendAndFinish_deliveries env st m user.access_token⟩

theorem processMessage_attempted_msgs (env : Env) (st : DBState)
    (m : ScheduledMessage) (h : (processMessage env st m).deliveries ≠ []) :
    (processMessage env st m).state.msgs
      = updateScheduledMessage st.msgs m.id (sendResultUpdate env m) := by
  unfold processMessage at h ⊢
  cases hu : getUserById st.users m.user_id with
  | none => rw [hu] at h; simp at h
  | some user =>
    rw [hu] at h
    by_cases hexp : tokenExpired user env.now
    · simp only [hexp, if_true] at h ⊢
      by_cases hrt : truthyStr user.refresh_token
      · simp only [hrt, Bool.not_true, Bool.false_eq_true, if_false] at h ⊢
        cases href : refreshAccessToken (env.refreshResponse user.id) user.refresh_token with
        | error e => rw [href] at h; simp at h
        | ok r => exact sendAndFinish_msgs env _ m r.access_token
      · simp only [hrt, Bool.not_false, if_true] at h
        simp at h
    · simp only [hexp, if_false]
      exact sendAndFinish_msgs env st m user.access_token

theorem countDeliveries_processMessage_other (env : Env) (st : DBState)
    (m : ScheduledMessage) {i : Nat} (h : m.id ≠ i) :
    countDeliveries i (processMessage env st m).deliveries = 0 := by
  rcases processMessage_deliveries_shape env st m with hd | ⟨tok, hd⟩ <;>
    simp [countDeliveries, hd, h]

theorem countDeliveries_processMessage_le (env : Env) (st : DBState)
    (m : ScheduledMessage) (i : Nat) :
    countDeliveries i (processMessage env st m).deliveries ≤ 1 := by
  by_cases him : m.id = i
  · rcases processMessage_deliveries_shape env st m with hd | ⟨tok, hd⟩ <;>
      simp [countDeliveries, hd, him]
  · rw [countDeliveries_processMessage_other env st m him]
    omega

theorem getUserById_some {users : List User} {i : Nat} {u : User}
    (h : getUserById users i = some u) : u.id = i := by
  unfold getUserById at h
  simpa using List.find?_some h

/-- Claim C7 (amended): `tick()` selects as due exactly the messages with
`status == pending` and `sendAt <= now` — a message with `sendAt > now` is
never selected — and returns them in store order (a sublist of the
collection), with no sort by `sendAt` applied. -/
theorem c7_due_selection (msgs : List ScheduledMessage) (now : Nat) :
    (∀ m, m ∈ getPendingMessages msgs now ↔
        m ∈ msgs ∧ m.status = MsgStatus.pending ∧ m.send_timestamp ≤ now)
    ∧ (getPendingMessages msgs now).Sublist msgs := by
  constructor
  · intro m
    unfold getPendingMessages
    simp [List.mem_filter, and_assoc]
  · exact List.filter_sublist msgs

def c7EarlyMsg : ScheduledMessage :=
  { id := 1, user_id := 7, channel := "general", message := "first stored"
    send_timestamp := 100, status := MsgStatus.pending, retry_count := 0 }

def c7LateMsg : ScheduledMessage :=
  { id := 2, user_id := 7, channel := "general", message := "second stored"
    send_timestamp := 50, status := MsgStatus.pending, retry_count := 0 }

/-- Claim C7 counterexample: with two due pending messages stored in the
order `sendAt = 100` then `sendAt = 50`, `getPendingMessages` returns them
in store order `[100, 50]`, which is not sorted by `sendAt` ascending. -/
theorem c7_counterexample :
    (getPendingMessages [c7EarlyMsg, c7LateMsg] 200).map (fun m => m.send_timestamp)
      = [100, 50]
    ∧ ¬ List.Sorted (fun a b => a ≤ b)
        ((getPendingMessages [c7EarlyMsg, c7LateMsg] 200).map (fun m => m.send_timestamp)) := by
  constructor
  · rfl
  · have he : (getPendingMessages [c7EarlyMsg, c7LateMsg] 200).map
        (fun m => m.send_timestamp) = [100, 50] := rfl
    rw [he]
    decide

/-- Claim C4 counterexample: the store holds one message in terminal state
`sent`; `cancelScheduledMessage` for its id and owner succeeds and removes
it — the deletion filter mentions only id and owner, never `status`. -/
theorem c4_counterexample :
    (let sentMsg : ScheduledMessage :=
      { id := 1, user_id := 7, channel := "general", message := "hello"
        send_timestamp := 100, status := MsgStatus.sent, retry_count := 0 }
     sentMsg.status = MsgStatus.sent
       ∧ cancelScheduledMessage [sentMsg] 1 7 = Except.ok []) := by
  exact ⟨rfl, rfl⟩

/-- Claim C4 (amended): `cancel(messageId, ownerId)` deletes a stored
message whenever its id and owner match, regardless of status: in
particular a message already in a terminal state (`sent` or `failed`) is
removed by a matching cancel call rather than preserved. -/
theorem c4_amended (msgs : List ScheduledMessage) (m : ScheduledMessage)
    (hm : m ∈ msgs)
    (hterm : m.status = MsgStatus.sent ∨ m.status = MsgStatus.failed) :
    ∃ msgs', cancelScheduledMessage msgs m.id m.user_id = Except.ok msgs'
      ∧ msgs'.length + 1 = msgs.length := by
  have hmatch : (fun x : ScheduledMessage => x.id == m.id && x.user_id == m.user_id) m = true := by
    simp
  have hany : msgs.any (fun x => x.id == m.id && x.user_id == m.user_id) = true :=
    List.any_eq_true.mpr ⟨m, hm, hmatch⟩
  refine ⟨msgs.eraseP (fun x => x.id == m.id && x.user_id == m.user_id), ?_, ?_⟩
  · unfold cancelScheduledMessage deleteScheduledMessage
    rw [if_pos hany]
  · have hlen := @List.length_eraseP_of_mem _ msgs m
      (fun x => x.id == m.id && x.user_id == m.user_id) hm (by simp)
    have hpos : 0 < msgs.length := List.length_pos.mpr (by rintro rfl; cases hm)
    omega

/-- Claim C4 amended witness: a concrete `failed` message is removed by a
matching cancel. -/
theorem c4_amended_witness :
    ∃ msgs', cancelScheduledMessage
        [{ id := 3, user_id := 9, channel := "random", message := "done"
           send_timestamp := 10, status := MsgStatus.failed, retry_count := 3 }] 3 9
      = Except.ok msgs' ∧ msgs'.length + 1 = 1 :=
  c4_amended _ _ (List.mem_singleton.mpr rfl) (Or.inr rfl)

/-- Claim C10: when no credential record exists for a due message's owner,
`processMessage` makes no delivery call, leaves the credential store
unchanged, and sets only the message's `status` to `failed` — its
`retry_count` (unlike the expired-credential and delivery-failure paths)
and every other field keep their previous values. -/
theorem c10_missing_credential_frame (env : Env) (st : DBState)
    (m : ScheduledMessage)
    (hu : getUserById st.users m.user_id = none)
    (hfind : findMsg st.msgs m.id = some m) :
    (processMessage env st m).deliveries = []
    ∧ (processMessage env st m).state.users = st.users
    ∧ ∃ m', findMsg (processMessage env st m).state.msgs m.id = some m'
        ∧ m'.status = MsgStatus.failed
        ∧ m'.retry_count = m.retry_count
        ∧ m'.send_timestamp = m.send_timestamp
        ∧ m'.channel = m.channel
        ∧ m'.message = m.message
        ∧ m'.user_id = m.user_id
        ∧ m'.id = m.id := by
  rw [processMessage_user_none env st m hu]
  refine ⟨rfl, rfl, ?_⟩
  refine ⟨_, findMsg_update_self hfind _, ?_⟩
  simp [applyUpdate]

/-- Claim C10 witness: a concrete due message whose `user_id` matches no
credential record. -/
theorem c10_witness :
    (let m : ScheduledMessage :=
      { id := 4, user_id := 42, channel := "general", message := "orphan"
        send_timestamp := 5, status := MsgStatus.pending, retry_count := 2 }
     let st : DBState := { msgs := [m], users := [] }
     let env : Env := { now := 10, refreshResponse := fun _ => none
                        sendOutcome := fun _ => true }
     (processMessage env st m).deliveries = []
       ∧ (processMessage env st m).state.users = st.users
       ∧ ∃ m', findMsg (processMessage env st m).state.msgs m.id = some m'
           ∧ m'.status = MsgStatus.failed
           ∧ m'.retry_count = m.retry_count
           ∧ m'.send_timestamp = m.send_timestamp
           ∧ m'.channel = m.channel
           ∧ m'.message = m.message
           ∧ m'.user_id = m.user_id
           ∧ m'.id = m.id) :=
  c10_missing_credential_frame _ _ _ rfl rfl

/-- Claim C6: a pending message whose delivery attempt succeeds is marked
`sent`, with `retry_count` unchanged from before the attempt. -/
theorem c6_success_sent (env : Env) (st : DBState) (m : ScheduledMessage)
    (hfind : findMsg st.msgs m.id = some m)
    (hatt : (processMessage env st m).deliveries ≠ [])
    (hok : env.sendOutcome m.id = true) :
    ∃ m', findMsg (processMessage env st m).state.msgs m.id = some m'
      ∧ m'.status = MsgStatus.sent
      ∧ m'.retry_count = m.retry_count := by
  rw [processMessage_attempted_msgs env st m hatt]
  refine ⟨_, findMsg_update_self hfind _, ?_, ?_⟩ <;>
    simp [sendResultUpdate, hok, applyUpdate]

/-- Claim C6 witness: a concrete due message with a valid non-expiring
credential and a successful delivery. -/
theorem c6_witness :
    (let m : ScheduledMessage :=
      { id := 1, user_id := 7, channel := "general", message := "hello"
        send_timestamp := 100, status := MsgStatus.pending, retry_count := 2 }
     let st : DBState :=
      { msgs := [m]
        users := [{ id := 7, access_token := "tok", refresh_token := none
                    token_expires_at := none }] }
     let env : Env := { now := 1000, refreshResponse := fun _ => none
                        sendOutcome := fun _ => true }
     ∃ m', findMsg (processMessage env st m).state.msgs m.id = some m'
       ∧ m'.status = MsgStatus.sent
       ∧ m'.retry_count = m.retry_count) :=
  c6_success_sent _ _ _ rfl (by decide) rfl

/-- Claim C1 counterexample: a pending message with `retryCount = 2 < 3`
whose delivery attempt fails is marked `failed` (with `retry_count = 3`),
not kept `pending` — the source gives up when `retry_count + 1 >= 3`,
i.e. already on the failure of the third attempt. -/
theorem c1_counterexample :
    (let m : ScheduledMessage :=
      { id := 1, user_id := 7, channel := "general", message := "hello"
        send_timestamp := 100, status := MsgStatus.pending, retry_count := 2 }
     let st : DBState :=
      { msgs := [m]
        users := [{ id := 7, access_token := "tok", refresh_token := none
                    token_expires_at := none }] }
     let env : Env := { now := 1000, refreshResponse := fun _ => none
                        sendOutcome := fun _ => false }
     m.retry_count < 3
       ∧ (processMessage env st m).deliveries.length = 1
       ∧ env.sendOutcome m.id = false
       ∧ (findMsg (processMessage env st m).state.msgs 1).map (fun x => x.status)
           = some MsgStatus.failed
       ∧ MsgStatus.failed ≠ MsgStatus.pending) := by
  refine ⟨by decide, rfl, rfl, rfl, by decide⟩

/-- Claim C1 (amended): for a pending message whose delivery attempt fails
with `retryCount + 1 < 3` (i.e. `retryCount < 2`) before the attempt,
after `processMessage` the message is still `pending`, `retryCount` is
incremented by exactly 1, and `sendAt` equals `now + 300` seconds. -/
theorem c1_retry_backoff (env : Env) (st : DBState) (m : ScheduledMessage)
    (hfind : findMsg st.msgs m.id = some m)
    (hpend : m.status = MsgStatus.pending)
    (hatt : (processMessage env st m).deliveries ≠ [])
    (hfail : env.sendOutcome m.id = false)
    (hrc : m.retry_count + 1 < 3) :
    ∃ m', findMsg (processMessage env st m).state.msgs m.id = some m'
      ∧ m'.status = MsgStatus.pending
      ∧ m'.retry_count = m.retry_count + 1
      ∧ m'.send_timestamp = env.now + 300 := by
  rw [processMessage_attempted_msgs env st m hatt]
  have h3 : ¬ m.retry_count + 1 ≥ 3 := by omega
  refine ⟨_, findMsg_update_self hfind _, ?_, ?_, ?_⟩ <;>
    simp [sendResultUpdate, hfail, h3, applyUpdate, hpend]

/-- Claim C1 amended witness: a concrete first-attempt failure is
rescheduled `pending` with `retry_count = 1` and `sendAt = now + 300`. -/
theorem c1_retry_backoff_witness :
    (let m : ScheduledMessage :=
      { id := 1, user_id := 7, channel := "general", message := "hello"
        send_timestamp := 100, status := MsgStatus.pending, retry_count := 0 }
     let st : DBState :=
      { msgs := [m]
        users := [{ id := 7, access_token := "tok", refresh_token := none
                    token_expires_at := none }] }
     let env : Env := { now := 1000, refreshResponse := fun _ => none
                        sendOutcome := fun _ => false }
     ∃ m', findMsg (processMessage env st m).state.msgs m.id = some m'
       ∧ m'.status = MsgStatus.pending
       ∧ m'.retry_count = m.retry_count + 1
       ∧ m'.send_timestamp = env.now + 300) :=
  c1_retry_backoff _ _ _ rfl rfl (by decide) rfl (by decide)

/-- Claim C2 counterexample: a pending message with `retryCount = 3`
whose delivery attempt fails ends with `retry_count = 4` — the count is
incremented once more, not kept at its pre-attempt value. -/
theorem c2_counterexample :
    (let m : ScheduledMessage :=
      { id := 1, user_id := 7, channel := "general", message := "hello"
        send_timestamp := 100, status := MsgStatus.pending, retry_count := 3 }
     let st : DBState :=
      { msgs := [m]
        users := [{ id := 7, access_token := "tok", refresh_token := none
                    token_expires_at := none }] }
     let env : Env := { now := 1000, refreshResponse := fun _ => none
                        sendOutcome := fun _ => false }
     m.retry_count = 3
       ∧ (processMessage env st m).deliveries.length = 1
       ∧ env.sendOutcome m.id = false
       ∧ (findMsg (processMessage env st m).state.msgs 1).map (fun x => x.retry_count)
           = some 4
       ∧ (4 : Nat) ≠ 3) := by
  refine ⟨rfl, rfl, rfl, rfl, by decide⟩

/-- Claim C5 counterexample: a credential whose stored expiry is `0`
(an epoch timestamp in the past) with no refresh token — in the source
`user.token_expires_at && …` treats the number `0` as falsy, so the
expiry check is skipped and a delivery call is made (here succeeding),
instead of the message failing without delivery. -/
theorem c5_counterexample :
    (let m : ScheduledMessage :=
      { id := 1, user_id := 7, channel := "general", message := "hello"
        send_timestamp := 100, status := MsgStatus.pending, retry_count := 0 }
     let st : DBState :=
      { msgs := [m]
        users := [{ id := 7, access_token := "tok", refresh_token := none
                    token_expires_at := some 0 }] }
     let env : Env := { now := 1000, refreshResponse := fun _ => none
                        sendOutcome := fun _ => true }
     (getUserById st.users m.user_id).map (fun u => u.token_expires_at)
         = some (some 0)
       ∧ (0 : Nat) < env.now
       ∧ (getUserById st.users m.user_id).map (fun u => u.refresh_token)
           = some none
       ∧ (processMessage env st m).deliveries.length = 1
       ∧ (findMsg (processMessage env st m).state.msgs 1).map (fun x => x.status)
           = some MsgStatus.sent
       ∧ MsgStatus.sent ≠ MsgStatus.failed) := by
  refine ⟨rfl, by decide, rfl, rfl, rfl, by decide⟩

/-- Claim C5 (amended): for a due message whose owning credential has a
nonzero expiry in the past (`expiresAt ≠ 0` and `expiresAt <= now`; `0` is
falsy in the source's expiry check) and a falsy refresh token,
`processMessage` marks the message `failed` with `retryCount` incremented
by 1, and no delivery call is made. -/
theorem c5_expired_no_refresh (env : Env) (st : DBState) (m : ScheduledMessage)
    {u : User} (hu : getUserById st.users m.user_id = some u)
    {e : Nat} (he : u.token_expires_at = some e) (he0 : e ≠ 0)
    (hle : e ≤ env.now)
    (hrt : truthyStr u.refresh_token = false)
    (hfind : findMsg st.msgs m.id = some m) :
    (processMessage env st m).deliveries = []
    ∧ ∃ m', findMsg (processMessage env st m).state.msgs m.id = some m'
        ∧ m'.status = MsgStatus.failed
        ∧ m'.retry_count = m.retry_count + 1 := by
  have hexp : tokenExpired u env.now = true := by
    unfold tokenExpired
    rw [he]
    simp [he0, hle]
  rw [processMessage_expired_no_refresh env st m hu hexp hrt]
  refine ⟨rfl, _, findMsg_update_self hfind _, ?_, ?_⟩ <;> simp [applyUpdate]

/-- Claim C5 amended witness: a concrete expired credential (expiry 50,
now 1000) without refresh token fails the message without delivery. -/
theorem c5_expired_no_refresh_witness :
    (let m : ScheduledMessage :=
      { id := 1, user_id := 7, channel := "general", message := "hello"
        send_timestamp := 100, status := MsgStatus.pending, retry_count := 1 }
     let st : DBState :=
      { msgs := [m]
        users := [{ id := 7, access_token := "tok", refresh_token := none
                    token_expires_at := some 50 }] }
     let env : Env := { now := 1000, refreshResponse := fun _ => none
                        sendOutcome := fun _ => true }
     (processMessage env st m).deliveries = []
       ∧ ∃ m', findMsg (processMessage env st m).state.msgs m.id = some m'
           ∧ m'.status = MsgStatus.failed
           ∧ m'.retry_count = m.retry_count + 1) :=
  c5_expired_no_refresh _ _ _ rfl rfl (by decide) (by decide) rfl rfl

theorem getUserById_updateUserToken_self {users : List User} {i : Nat}
    {u : User} (h : getUserById users i = some u) (tok : String) (e : Nat) :
    getUserById (updateUserToken users i tok e) i
      = some { u with access_token := tok, token_expires_at := some e } := by
  have hid : u.id = i := getUserById_some h
  unfold getUserById at h
  unfold getUserById updateUserToken
  rw [List.find?_map]
  have hpq : ((fun x : User => x.id == i)
      ∘ (fun x => if x.id == i then { x with access_token := tok, token_expires_at := some e } else x))
      = (fun x : User => x.id == i) := by
    funext x
    by_cases hx : x.id = i <;> simp [hx]
  rw [hpq, h]
  simp [hid]

/-- Claim C9: when the identity provider's refresh response omits
`expires_in`, `refreshAccessToken` substitutes `43200`, so the scheduler
persists `token_expires_at = now + 43200` (12 hours) on the credential
rather than a never-expiring one. -/
theorem c9_refresh_default_expiry (env : Env) (st : DBState)
    (m : ScheduledMessage) {u : User}
    (hu : getUserById st.users m.user_id = some u)
    (hexp : tokenExpired u env.now = true)
    (hrt : truthyStr u.refresh_token = true)
    {a : String}
    (hresp : env.refreshResponse u.id
      = some { ok := true, access_token := a, expires_in := none }) :
    refreshAccessToken (env.refreshResponse u.id) u.refresh_token
      = Except.ok { access_token := a, expires_in := 43200 }
    ∧ getUserById (processMessage env st m).state.users m.user_id
      = some { u with access_token := a, token_expires_at := some (env.now + 43200) } := by
  have hid : u.id = m.user_id := getUserById_some hu
  have href : refreshAccessToken (env.refreshResponse u.id) u.refresh_token
      = Except.ok { access_token := a, expires_in := 43200 } := by
    unfold refreshAccessToken
    rw [hresp, hrt]
    simp [jsOrNum]
  refine ⟨href, ?_⟩
  unfold processMessage
  rw [hu]
  simp only [hexp, if_true, hrt, Bool.not_true, Bool.false_eq_true, if_false]
  rw [href]
  rw [sendAndFinish_users]
  have := getUserById_updateUserToken_self hu a (env.now + 43200)
  simpa [hid] using this

def c9WitUser : User :=
  { id := 7, access_token := "old", refresh_token := some "r"
    token_expires_at := some 50 }

def c9WitMsg : ScheduledMessage :=
  { id := 1, user_id := 7, channel := "general", message := "hello"
    send_timestamp := 100, status := MsgStatus.pending, retry_count := 0 }

def c9WitSt : DBState := { msgs := [c9WitMsg], users := [c9WitUser] }

def c9WitEnv : Env :=
  { now := 1000
    refreshResponse := fun _ =>
      some { ok := true, access_token := "new", expires_in := none }
    sendOutcome := fun _ => true }

/-- Claim C9 witness: a concrete refresh response without `expires_in`
yields a credential expiring at `now + 43200`. -/
theorem c9_refresh_default_expiry_witness :
    refreshAccessToken (c9WitEnv.refreshResponse c9WitUser.id) c9WitUser.refresh_token
      = Except.ok { access_token := "new", expires_in := 43200 }
    ∧ getUserById (processMessage c9WitEnv c9WitSt c9WitMsg).state.users c9WitMsg.user_id
      = some { c9WitUser with
               access_token := "new"
               token_expires_at := some (c9WitEnv.now + 43200) } :=
  @c9_refresh_default_expiry c9WitEnv c9WitSt c9WitMsg c9WitUser rfl (by decide)
    (by decide) "new" rfl

/-- Claim C8: a `/schedule` request whose `sendTimestamp` is not strictly
in the future (`sendTimestamp <= now` at the time of the call) is rejected
synchronously with a 400 response, and no message record is created in
the store. -/
theorem c8_past_sendAt_rejected (now userId freshId : Nat)
    (channel messageBody : JsVal) (t : Nat)
    (msgs : List ScheduledMessage) (ht : t ≤ now) :
    (scheduleHandler now userId freshId channel messageBody (JsVal.num t) msgs).outcome.isBadRequest
      = true
    ∧ (scheduleHandler now userId freshId channel messageBody (JsVal.num t) msgs).msgs
      = msgs := by
  unfold scheduleHandler
  by_cases h1 : (!channel.truthy || !messageBody.truthy || !(JsVal.num t).truthy) = true
  · rw [if_pos h1]
    exact ⟨rfl, rfl⟩
  rw [if_neg h1]
  by_cases h2 : (!channel.isString || !messageBody.isString || !(JsVal.num t).isNumber) = true
  · rw [if_pos h2]
    exact ⟨rfl, rfl⟩
  rw [if_neg h2]
  by_cases h3 : (messageBody.getStr).trim.length = 0
  · rw [if_pos h3]
    exact ⟨rfl, rfl⟩
  rw [if_neg h3]
  rw [if_pos (show (JsVal.num t).getNum ≤ now from ht)]
  exact ⟨rfl, rfl⟩

/-- Claim C8 witness: a request with `sendTimestamp = 900 <= now = 1000`
is rejected and the store remains empty. -/
theorem c8_past_sendAt_rejected_witness :
    (scheduleHandler 1000 7 9 (JsVal.str "general") (JsVal.str "hi") (JsVal.num 900) []).outcome.isBadRequest
      = true
    ∧ (scheduleHandler 1000 7 9 (JsVal.str "general") (JsVal.str "hi") (JsVal.num 900) []).msgs
      = [] :=
  c8_past_sendAt_rejected 1000 7 9 (JsVal.str "general") (JsVal.str "hi") 900 []
    (by decide)

/-- Claim C3 counterexample: one due pending message; two tick executions
overlap so that both read the due list before either processes it (a
legal event-loop interleaving of the two `async` cron callbacks, which
the source does not guard against). The same message id then receives two
delivery calls that both succeed. -/
theorem c3_counterexample :
    (let m : ScheduledMessage :=
      { id := 1, user_id := 7, channel := "general", message := "hello"
        send_timestamp := 100, status := MsgStatus.pending, retry_count := 0 }
     let st : DBState :=
      { msgs := [m]
        users := [{ id := 7, access_token := "tok", refresh_token := none
                    token_expires_at := none }] }
     let env : Env := { now := 1000, refreshResponse := fun _ => none
                        sendOutcome := fun _ => true }
     countSuccesses 1 (overlappingTicks env env st).deliveries = 2
       ∧ ¬ (2 : Nat) ≤ 1) := by
  exact ⟨rfl, by decide⟩

theorem countDeliveries_append (i : Nat) (l1 l2 : List DeliveryCall) :
    countDeliveries i (l1 ++ l2) = countDeliveries i l1 + countDeliveries i l2 := by
  unfold countDeliveries
  rw [List.filter_append, List.length_append]

theorem countDeliveries_runList_le_count (env : Env) (i : Nat) :
    ∀ (l : List ScheduledMessage) (st : DBState),
      countDeliveries i (runList env l st).deliveries
        ≤ (l.map (fun m => m.id)).count i := by
  intro l
  induction l with
  | nil => intro st; simp [runList, countDeliveries]
  | cons m rest ih =>
    intro st
    have hm : countDeliveries i (processMessage env st m).deliveries
        ≤ if m.id = i then 1 else 0 := by
      by_cases him : m.id = i
      · simpa [him] using countDeliveries_processMessage_le env st m i
      · rw [countDeliveries_processMessage_other env st m him]
        simp [him]
    have hcount : ((m :: rest).map (fun x => x.id)).count i
        = (rest.map (fun x => x.id)).count i + (if m.id = i then 1 else 0) := by
      by_cases him : m.id = i <;> simp [List.count_cons, him]
    rw [show runList env (m :: rest) st
        = { state := (runList env rest (processMessage env st m).state).state
            deliveries := (processMessage env st m).deliveries
              ++ (runList env rest (processMessage env st m).state).deliveries } from rfl]
    rw [countDeliveries_append]
    have := ih (processMessage env st m).state
    rw [hcount]
    omega

/-- Claim C3 (amended): within a single `tick()` execution over a store
with distinct message ids, each message id receives at most one delivery
call (hence at most one successful delivery); the source provides no
per-id mutual exclusion across overlapping ticks, so the at-most-once
guarantee holds only per tick, not across two overlapping ticks. -/
theorem c3_tick_at_most_once (env : Env) (st : DBState)
    (hn : (st.msgs.map (fun m => m.id)).Nodup) (i : Nat) :
    countDeliveries i (processScheduledMessages env st).deliveries ≤ 1 := by
  have hsub : ((getPendingMessages st.msgs env.now).map (fun m => m.id)).Sublist
      (st.msgs.map (fun m => m.id)) :=
    List.Sublist.map _ (List.filter_sublist st.msgs)
  have hnodup : ((getPendingMessages st.msgs env.now).map (fun m => m.id)).Nodup :=
    hsub.nodup hn
  have hle := countDeliveries_runList_le_count env i (getPendingMessages st.msgs env.now) st
  have hcnt := List.nodup_iff_count_le_one.mp hnodup i
  unfold processScheduledMessages
  omega

/-- Claim C3 amended witness: a single tick on a two-message store makes at
most one delivery call for message id 1. -/
theorem c3_tick_at_most_once_witness :
    (let st : DBState :=
      { msgs := [{ id := 1, user_id := 7, channel := "general", message := "a"
                   send_timestamp := 100, status := MsgStatus.pending, retry_count := 0 },
                 { id := 2, user_id := 7, channel := "general", message := "b"
                   send_timestamp := 100, status := MsgStatus.pending, retry_count := 0 }]
        users := [{ id := 7, access_token := "tok", refresh_token := none
                    token_expires_at := none }] }
     let env : Env := { now := 1000, refreshResponse := fun _ => none
                        sendOutcome := fun _ => true }
     countDeliveries 1 (processScheduledMessages env st).deliveries ≤ 1) :=
  c3_tick_at_most_once _ _ (by decide) 1

/-- Remaining delivery-attempt budget of a message record: a pending
message with `retry_count = r` can receive at most `3 - r` further
delivery calls when `r < 3` (and exactly one more when `r >= 3`, a state
unreachable from creation); terminal or absent records receive none. -/
def budget : Option ScheduledMessage → Nat
  | none => 0
  | some m =>
    if m.status = MsgStatus.pending then
      (if m.retry_count < 3 then 3 - m.retry_count else 1)
    else 0

theorem processMessage_no_attempt_failed (env : Env) (st : DBState)
    (m : ScheduledMessage) (h : (processMessage env st m).deliveries = []) :
    ∃ u : MsgUpdate, (processMessage env st m).state.msgs
        = updateScheduledMessage st.msgs m.id u
      ∧ u.status = some MsgStatus.failed := by
  unfold processMessage at h ⊢
  cases hu : getUserById st.users m.user_id with
  | none => exact ⟨_, rfl, rfl⟩
  | some user =>
    rw [hu] at h
    by_cases hexp : tokenExpired user env.now
    · simp only [hexp, if_true] at h ⊢
      by_cases hrt : truthyStr user.refresh_token
      · simp only [hrt, Bool.not_true, Bool.false_eq_true, if_false] at h ⊢
        cases href : refreshAccessToken (env.refreshResponse user.id) user.refresh_token with
        | error e => exact ⟨_, rfl, rfl⟩
        | ok r =>
          rw [href] at h
          simp [sendAndFinish_deliveries] at h
      · simp only [hrt, Bool.not_false, if_true]
        exact ⟨_, rfl, rfl⟩
    · simp only [hexp, Bool.false_eq_true, if_false] at h ⊢
      simp [sendAndFinish_deliveries] at h

theorem processMessage_budget_self (env : Env) (st : DBState)
    (m : ScheduledMessage) (hpend : m.status = MsgStatus.pending)
    (hfind : findMsg st.msgs m.id = some m) :
    countDeliveries m.id (processMessage env st m).deliveries
      + budget (findMsg (processMessage env st m).state.msgs m.id)
      ≤ budget (some m) := by
  have hb : budget (some m) = if m.retry_count < 3 then 3 - m.retry_count else 1 := by
    simp [budget, hpend]
  rcases processMessage_deliveries_shape env st m with hd | ⟨tok, hd⟩
  · obtain ⟨u, hmsgs, hust⟩ := processMessage_no_attempt_failed env st m hd
    rw [hmsgs, findMsg_update_self hfind u, hd]
    simp [countDeliveries, budget, applyUpdate, hust]
  · have hatt : (processMessage env st m).deliveries ≠ [] := by
      rw [hd]; exact List.cons_ne_nil _ _
    have hmsgs := processMessage_attempted_msgs env st m hatt
    rw [hmsgs, findMsg_update_self hfind (sendResultUpdate env m), hd]
    have hcnt : countDeliveries m.id
        [{ msgId := m.id, token := tok, channel := m.channel, text := m.message
           ok := env.sendOutcome m.id }] = 1 := by
      simp [countDeliveries]
    rw [hcnt, hb]
    by_cases hok : env.sendOutcome m.id
    · have hupd : applyUpdate m (sendResultUpdate env m)
          = { m with status := MsgStatus.sent } := by
        simp [sendResultUpdate, hok, applyUpdate]
      rw [hupd]
      have hzero : budget (some ({ m with status := MsgStatus.sent } : ScheduledMessage))
          = 0 := by
        simp [budget]
      rw [hzero]
      by_cases hr3 : m.retry_count < 3 <;> simp [hr3] <;> omega
    · by_cases h3 : m.retry_count + 1 ≥ 3
      · have hupd : applyUpdate m (sendResultUpdate env m)
            = { m with status := MsgStatus.failed
                       retry_count := m.retry_count + 1 } := by
          simp [sendResultUpdate, hok, h3, applyUpdate]
        rw [hupd]
        have hzero : budget (some ({ m with
            status := MsgStatus.failed, retry_count := m.retry_count + 1 } : ScheduledMessage))
            = 0 := by
          simp [budget]
        rw [hzero]
        by_cases hr3 : m.retry_count < 3 <;> simp [hr3] <;> omega
      · have hupd : applyUpdate m (sendResultUpdate env m)
            = { m with retry_count := m.retry_count + 1
                       send_timestamp := env.now + 300 } := by
          simp [sendResultUpdate, hok, h3, applyUpdate]
        rw [hupd]
        have hb2 : budget (some ({ m with
            retry_count := m.retry_count + 1, send_timestamp := env.now + 300 } : ScheduledMessage))
            = if m.retry_count + 1 < 3 then 3 - (m.retry_count + 1) else 1 := by
          simp [budget, hpend]
        rw [hb2]
        have h13 : m.retry_count + 1 < 3 := by omega
        rw [if_pos h13, if_pos (show m.retry_count < 3 by omega)]
        omega

theorem runList_cons (env : Env) (m : ScheduledMessage)
    (rest : List ScheduledMessage) (st : DBState) :
    runList env (m :: rest) st
      = { state := (runList env rest (processMessage env st m).state).state
          deliveries := (processMessage env st m).deliveries
            ++ (runList env rest (processMessage env st m).state).deliveries } := rfl

theorem runList_untouched (env : Env) (i : Nat) :
    ∀ (l : List ScheduledMessage) (st : DBState),
      i ∉ l.map (fun m => m.id) →
      countDeliveries i (runList env l st).deliveries = 0
      ∧ findMsg (runList env l st).state.msgs i = findMsg st.msgs i := by
  intro l
  induction l with
  | nil => intro st _; exact ⟨rfl, rfl⟩
  | cons m rest ih =>
    intro st hni
    have hm : m.id ≠ i := by
      intro he
      exact hni (by simp [he])
    have hrest : i ∉ rest.map (fun x => x.id) := by
      intro hmem
      exact hni (by simp [hmem])
    obtain ⟨ihc, ihf⟩ := ih (processMessage env st m).state hrest
    rw [runList_cons, countDeliveries_append]
    refine ⟨?_, ?_⟩
    · rw [countDeliveries_processMessage_other env st m hm, ihc]
    · rw [ihf, processMessage_findMsg_other env st m hm]

theorem runList_budget (env : Env) (i : Nat) :
    ∀ (l : List ScheduledMessage) (st : DBState),
      (l.map (fun m => m.id)).Nodup →
      (∀ m' ∈ l, findMsg st.msgs m'.id = some m') →
      (∀ m' ∈ l, m'.status = MsgStatus.pending) →
      countDeliveries i (runList env l st).deliveries
        + budget (findMsg (runList env l st).state.msgs i)
        ≤ budget (findMsg st.msgs i) := by
  intro l
  induction l with
  | nil => intro st _ _ _; simp [runList, countDeliveries]
  | cons m rest ih =>
    intro st hn hcur hpend
    have hn' : (∀ x ∈ rest, ¬ x.id = m.id) ∧ (rest.map (fun x => x.id)).Nodup := by
      simpa using hn
    have hcurm : findMsg st.msgs m.id = some m := hcur m (List.mem_cons_self m rest)
    have hpendm : m.status = MsgStatus.pending := hpend m (List.mem_cons_self m rest)
    have hcur' : ∀ m' ∈ rest, findMsg (processMessage env st m).state.msgs m'.id = some m' := by
      intro m' hm'
      have hne : m.id ≠ m'.id := fun he => hn'.1 m' hm' he.symm
      rw [processMessage_findMsg_other env st m hne]
      exact hcur m' (List.mem_cons_of_mem m hm')
    have hpend' : ∀ m' ∈ rest, m'.status = MsgStatus.pending := fun m' hm' =>
      hpend m' (List.mem_cons_of_mem m hm')
    rw [runList_cons, countDeliveries_append]
    dsimp only
    by_cases him : m.id = i
    · subst him
      have hnotin : m.id ∉ rest.map (fun x => x.id) := by
        intro hmem
        obtain ⟨x, hx, hxid⟩ := List.mem_map.mp hmem
        exact hn'.1 x hx hxid
      obtain ⟨huc, huf⟩ := runList_untouched env m.id rest (processMessage env st m).state hnotin
      rw [huc, huf, hcurm]
      have := processMessage_budget_self env st m hpendm hcurm
      omega
    · rw [countDeliveries_processMessage_other env st m him]
      have hfi : findMsg (processMessage env st m).state.msgs i = findMsg st.msgs i :=
        processMessage_findMsg_other env st m him
      have := ih (processMessage env st m).state hn'.2 hcur' hpend'
      rw [hfi] at this
      omega

theorem mem_getPendingMessages {msgs : List ScheduledMessage} {now : Nat}
    {m : ScheduledMessage} (h : m ∈ getPendingMessages msgs now) :
    m ∈ msgs ∧ m.status = MsgStatus.pending ∧ m.send_timestamp ≤ now := by
  unfold getPendingMessages at h
  obtain ⟨hmem, hp⟩ := List.mem_filter.mp h
  simp only [Bool.and_eq_true, beq_iff_eq, decide_eq_true_eq] at hp
  exact ⟨hmem, hp.1, hp.2⟩

theorem processScheduledMessages_budget (env : Env) (st : DBState) (i : Nat)
    (hn : (st.msgs.map (fun m => m.id)).Nodup) :
    countDeliveries i (processScheduledMessages env st).deliveries
      + budget (findMsg (processScheduledMessages env st).state.msgs i)
      ≤ budget (findMsg st.msgs i) := by
  unfold processScheduledMessages
  have hsub : ((getPendingMessages st.msgs env.now).map (fun m => m.id)).Sublist
      (st.msgs.map (fun m => m.id)) :=
    List.Sublist.map _ (List.filter_sublist st.msgs)
  refine runList_budget env i (getPendingMessages st.msgs env.now) st
    (hsub.nodup hn) ?_ ?_
  · intro m' hm'
    exact findMsg_mem_nodup hn (mem_getPendingMessages hm').1
  · intro m' hm'
    exact (mem_getPendingMessages hm').2.1

theorem runList_msgs_ids (env : Env) :
    ∀ (l : List ScheduledMessage) (st : DBState),
      (runList env l st).state.msgs.map (fun x => x.id)
        = st.msgs.map (fun x => x.id) := by
  intro l
  induction l with
  | nil => intro st; rfl
  | cons m rest ih =>
    intro st
    rw [runList_cons]
    dsimp only
    rw [ih, processMessage_ids]

theorem runTicks_cons (e : Env) (rest : List Env) (st : DBState) :
    runTicks (e :: rest) st
      = { state := (runTicks rest (processScheduledMessages e st).state).state
          deliveries := (processScheduledMessages e st).deliveries
            ++ (runTicks rest (processScheduledMessages e st).state).deliveries } := rfl

theorem runTicks_budget (i : Nat) :
    ∀ (envs : List Env) (st : DBState),
      (st.msgs.map (fun m => m.id)).Nodup →
      countDeliveries i (runTicks envs st).deliveries
        + budget (findMsg (runTicks envs st).state.msgs i)
        ≤ budget (findMsg st.msgs i) := by
  intro envs
  induction envs with
  | nil => intro st _; simp [runTicks, countDeliveries]
  | cons e rest ih =>
    intro st hn
    have htickn : ((processScheduledMessages e st).state.msgs.map (fun m => m.id)).Nodup := by
      unfold processScheduledMessages
      rw [runList_msgs_ids]
      exact hn
    have htick := processScheduledMessages_budget e st i hn
    have hrest := ih (processScheduledMessages e st).state htickn
    rw [runTicks_cons, countDeliveries_append]
    dsimp only
    omega

/-- Claim C2 (amended): a message created `pending` with `retryCount = 0`
receives at most 3 delivery attempts over any sequence of ticks (the
retry budget is exhausted when `retry_count` reaches 3 at the terminal
failure); and for a pending message whose delivery attempt fails with
`retryCount >= 3` before the attempt, `processMessage` marks it `failed`
with `retryCount` incremented by 1 (not kept at its pre-attempt value). -/
theorem c2_retry_limit :
    (∀ (envs : List Env) (st : DBState) (i : Nat) (m : ScheduledMessage),
      (st.msgs.map (fun x => x.id)).Nodup →
      findMsg st.msgs i = some m →
      m.status = MsgStatus.pending →
      m.retry_count = 0 →
      countDeliveries i (runTicks envs st).deliveries ≤ 3)
    ∧ (∀ (env : Env) (st : DBState) (m : ScheduledMessage),
      findMsg st.msgs m.id = some m →
      (processMessage env st m).deliveries ≠ [] →
      env.sendOutcome m.id = false →
      m.retry_count ≥ 3 →
      ∃ m', findMsg (processMessage env st m).state.msgs m.id = some m'
        ∧ m'.status = MsgStatus.failed
        ∧ m'.retry_count = m.retry_count + 1) := by
  constructor
  · intro envs st i m hn hfind hpend hrc
    have hbud := runTicks_budget i envs st hn
    rw [hfind] at hbud
    have hb3 : budget (some m) = 3 := by
      simp [budget, hpend, hrc]
    rw [hb3] at hbud
    omega
  · intro env st m hfind hatt hfail hrc
    rw [processMessage_attempted_msgs env st m hatt]
    have h3 : m.retry_count + 1 ≥ 3 := by omega
    have hupd : applyUpdate m (sendResultUpdate env m)
        = { m with status := MsgStatus.failed, retry_count := m.retry_count + 1 } := by
      simp [sendResultUpdate, hfail, h3, applyUpdate]
    rw [findMsg_update_self hfind (sendResultUpdate env m), hupd]
    exact ⟨_, rfl, rfl, rfl⟩

/-- Claim C2 amended witness: both parts at concrete inputs — a fresh
message over one tick makes at most 3 delivery calls, and a concrete
`retry_count = 3` failure ends `failed` with `retry_count = 4`. -/
theorem c2_retry_limit_witness :
    (let m : ScheduledMessage :=
      { id := 1, user_id := 7, channel := "general", message := "hello"
        send_timestamp := 100, status := MsgStatus.pending, retry_count := 0 }
     let st : DBState :=
      { msgs := [m]
        users := [{ id := 7, access_token := "tok", refresh_token := none
                    token_expires_at := none }] }
     let env : Env := { now := 1000, refreshResponse := fun _ => none
                        sendOutcome := fun _ => false }
     countDeliveries 1 (runTicks [env, env, env, env] st).deliveries ≤ 3)
    ∧ (let m : ScheduledMessage :=
      { id := 1, user_id := 7, channel := "general", message := "hello"
        send_timestamp := 100, status := MsgStatus.pending, retry_count := 3 }
       let st : DBState :=
        { msgs := [m]
          users := [{ id := 7, access_token := "tok", refresh_token := none
                      token_expires_at := none }] }
       let env : Env := { now := 1000, refreshResponse := fun _ => none
                          sendOutcome := fun _ => false }
       ∃ m', findMsg (processMessage env st m).state.msgs m.id = some m'
         ∧ m'.status = MsgStatus.failed
         ∧ m'.retry_count = m.retry_count + 1) :=
  ⟨c2_retry_limit.1 _ _ 1 _ (by decide) rfl rfl rfl,
   c2_retry_limit.2 _ _ _ rfl (by decide) rfl (by decide)⟩
